import Mathlib

/-!
Verification of the Diary repository envelope scheme.

Sources embedded here:
- crypto.js (src/unnamed/part_000): PBKDF2 key derivation, AES-GCM envelope
  encryption (encryptText) and decryption (decryptPackage).
- batch_encrypt.js (inside src/service-worker.js, lines 65-270): the Node
  batch tool with deriveKeyFromPasswordNode, encryptTextNode, the passphrase
  double prompt, the per-file encryption loop and the manifest writer.

Platform primitives (WebCrypto subtle, crypto.getRandomValues, btoa/atob,
TextEncoder/TextDecoder, JSON) are not repository code; they are modelled
symbolically below:
- The CSPRNG is an explicit byte stream with a position (RngState); each call
  to the getRandomValues wrapper consumes the next n positions.
- PBKDF2-SHA256 key derivation is modelled as the opaque record of its inputs
  (CryptoKey carries password, salt and iteration count); WebCrypto rejects a
  non-positive iteration count (Pbkdf2Params.iterations is an EnforceRange
  unsigned long, and deriveBits throws OperationError when iterations is
  zero), modelled as the InvalidIterationCount error of the spec taxonomy.
- AES-GCM authenticated encryption is modelled in the symbolic (Dolev-Yao)
  style: a genuine ciphertext records the key, IV and plaintext that produced
  it and authenticates only under that exact key and IV; a bit-level
  modification of a genuine ciphertext is a distinct corrupted term that
  never authenticates (real GCM rejects it up to tag-forgery probability).
- Base64 transport (btoa/atob) is a bijection between byte strings and their
  base64 text, with empty text exactly for the empty byte string; envelope
  fields therefore hold the decoded content directly, and the JavaScript
  falsiness test on a field is modelled as absence or emptiness.
- TextEncoder/TextDecoder form an injective UTF-8 codec with decode inverse
  to encode, so plaintext passes through the model as the String itself.
-/

namespace Diary

/-- Error taxonomy of the spec, mapped to the concrete failures of the code:
UnsupportedVersion is the thrown message "Unsupported package version",
MalformedPackage is "Malformed package", AuthenticationFailure is
"Decryption failed (wrong passphrase or corrupted data)", and
InvalidIterationCount models the WebCrypto rejection of a non-positive
PBKDF2 iteration count. -/
inductive DiaryError where
  | UnsupportedVersion
  | MalformedPackage
  | AuthenticationFailure
  | InvalidIterationCount
  deriving DecidableEq, Repr

/-- State of the CSPRNG: an infinite byte stream and the position of the next
unread byte. Models crypto.getRandomValues consuming entropy sequentially. -/
structure RngState where
  stream : Nat → Nat
  pos : Nat

/-- Embedding of rndBytes (crypto.js line 4) and randomBytes
(batch_encrypt.js lines 107-117): draw n fresh bytes from the CSPRNG and
advance its position. -/
def rndBytes (n : Nat) (st : RngState) : List Nat × RngState :=
  ((List.range n).map fun i => st.stream (st.pos + i) % 256, ⟨st.stream, st.pos + n⟩)

/-- Bytes the stream delivers at offset off..off+n-1 past the current
position; rndBytes n st returns exactly rndSeg st 0 n. -/
def rndSeg (st : RngState) (off n : Nat) : List Nat :=
  (List.range n).map fun i => st.stream (st.pos + off + i) % 256

/-- Symbolic model of an AES-GCM 256 key derived by PBKDF2: WebCrypto returns
an opaque CryptoKey handle fully determined by the passphrase, the salt and
the iteration count, so the model is that triple. Two keys are equal exactly
when all three derivation inputs are equal. -/
structure CryptoKey where
  password : String
  salt : List Nat
  iterations : Int
  deriving DecidableEq, Repr

/-- Symbolic AES-GCM ciphertext bytes. A genuine term is produced by
subtle.encrypt and records the key, IV and plaintext it binds; corrupted
models any bit-level modification of existing ciphertext bytes (flipping the
bit at bitIndex), which AES-GCM tag verification rejects. -/
inductive CtBytes where
  | genuine (key : CryptoKey) (iv : List Nat) (plaintext : String)
  | corrupted (orig : CtBytes) (bitIndex : Nat)
  deriving DecidableEq, Repr

/-- Model of subtle.encrypt with AES-GCM: bind key, IV and plaintext into an
authenticated ciphertext. -/
def subtleEncrypt (key : CryptoKey) (iv : List Nat) (plaintext : String) : CtBytes :=
  .genuine key iv plaintext

/-- Model of subtle.decrypt with AES-GCM: succeeds with the full plaintext
exactly on a genuine ciphertext presented with the same key and the same IV
that produced it; everything else fails tag verification (the error payload
is opaque, as the code never inspects it). -/
def subtleDecrypt (key : CryptoKey) (iv : List Nat) : CtBytes → Except Unit String
  | .genuine k i p => if k = key ∧ i = iv then .ok p else .error ()
  | .corrupted _ _ => .error ()

/-- Embedding of deriveKeyFromPassword (crypto.js lines 12-33): import the
passphrase and derive an AES-GCM 256 key by PBKDF2-SHA256 over the salt with
the given iteration count (source default 200000). WebCrypto rejects a
non-positive iteration count instead of deriving a key. -/
def deriveKeyFromPassword (password : String) (saltBytes : List Nat)
    (iterations : Int := 200000) : Except DiaryError CryptoKey :=
  if iterations ≤ 0 then .error .InvalidIterationCount
  else .ok ⟨password, saltBytes, iterations⟩

/-- Envelope object of the wire format
v / kdf / kdf_iter / salt / iv / ct (crypto.js lines 47-54). Every field is
Option to model absence in the dynamically shaped JavaScript object; salt,
iv and ct hold the base64-decoded content (base64 is a bijection), and ct
holds the symbolic AES-GCM ciphertext bytes. -/
structure Pkg where
  v : Option Int
  kdf : Option String
  kdf_iter : Option Int
  salt : Option (List Nat)
  iv : Option (List Nat)
  ct : Option CtBytes
  deriving DecidableEq, Repr

/-- Embedding of encryptText (crypto.js lines 36-56): draw a fresh 16-byte
salt and a fresh 12-byte IV, derive the key with 200000 iterations, encrypt,
and package the envelope with kdf_iter 200000. -/
def encryptText (plaintext : String) (password : String) (st : RngState) :
    Except DiaryError (Pkg × RngState) :=
  let saltDraw := rndBytes 16 st
  let ivDraw := rndBytes 12 saltDraw.2
  match deriveKeyFromPassword password saltDraw.1 200000 with
  | .error e => .error e
  | .ok key =>
    let ctBuf := subtleEncrypt key ivDraw.1 plaintext
    .ok ({ v := some 1, kdf := some "PBKDF2", kdf_iter := some 200000,
           salt := some saltDraw.1, iv := some ivDraw.1, ct := some ctBuf },
         ivDraw.2)

/-- Iteration count decryptPackage actually uses (crypto.js line 67): the
JavaScript expression pkg.kdf_iter || 200000 takes the field when it is a
truthy number and falls back to 200000 when the field is absent or 0 (0 is
falsy in JavaScript). -/
def decryptIterations (kdfIter : Option Int) : Int :=
  match kdfIter with
  | none => 200000
  | some n => if n = 0 then 200000 else n

/-- Embedding of decryptPackage (crypto.js lines 59-84). The argument is the
parsed envelope object or none for a null input (the source also accepts the
JSON text form, which parses to the same object). Gate order follows the
source: the null-or-version test throws "Unsupported package version", then
the falsiness test on salt, iv and ct throws "Malformed package" (a missing
field is undefined and the empty base64 text is also falsy), then the key is
derived from the envelope salt and iteration count, and only then is
authenticated decryption attempted, any failure of which is rethrown as the
single authentication error. -/
def decryptPackage (pkgJsonOrObj : Option Pkg) (password : String) :
    Except DiaryError String :=
  match pkgJsonOrObj with
  | none => .error .UnsupportedVersion
  | some pkg =>
    if pkg.v ≠ some 1 then .error .UnsupportedVersion
    else
      match pkg.salt, pkg.iv, pkg.ct with
      | some saltBuf, some ivBuf, some ctBuf =>
        if saltBuf.isEmpty || ivBuf.isEmpty then .error .MalformedPackage
        else
          match deriveKeyFromPassword password saltBuf (decryptIterations pkg.kdf_iter) with
          | .error e => .error e
          | .ok key =>
            match subtleDecrypt key ivBuf ctBuf with
            | .error _ => .error .AuthenticationFailure
            | .ok plainBuf => .ok plainBuf
      | _, _, _ => .error .MalformedPackage

/-! Batch tool embedding (batch_encrypt.js, inside src/service-worker.js). -/

/-- Embedding of deriveKeyFromPasswordNode (batch_encrypt.js lines 161-183):
identical PBKDF2-SHA256 derivation over the WebCrypto subtle of Node. The
source declares a default argument ITERATIONS, but that name is the
block-scoped const of the main function and is not in scope here, so the
default would fail if ever used; every call site passes the iteration count
explicitly, and the model makes the argument required. -/
def deriveKeyFromPasswordNode (password : String) (saltBytes : List Nat)
    (iterations : Int) : Except DiaryError CryptoKey :=
  if iterations ≤ 0 then .error .InvalidIterationCount
  else .ok ⟨password, saltBytes, iterations⟩

/-- Embedding of encryptTextNode (batch_encrypt.js lines 186-206): draw a
fresh 16-byte salt and a fresh 12-byte IV, derive the key with the given
iteration count, encrypt, and package the envelope with kdf_iter set to that
same count. -/
def encryptTextNode (plaintext : String) (password : String) (iterations : Int)
    (st : RngState) : Except DiaryError (Pkg × RngState) :=
  let saltDraw := rndBytes 16 st
  let ivDraw := rndBytes 12 saltDraw.2
  match deriveKeyFromPasswordNode password saltDraw.1 iterations with
  | .error e => .error e
  | .ok key =>
    let encBuf := subtleEncrypt key ivDraw.1 plaintext
    .ok ({ v := some 1, kdf := some "PBKDF2", kdf_iter := some iterations,
           salt := some saltDraw.1, iv := some ivDraw.1, ct := some encBuf },
         ivDraw.2)

/-- Iteration count of the batch tool main function (batch_encrypt.js
line 237): const ITERATIONS = 1000000. -/
def ITERATIONS : Int := 1000000

/-- Manifest structure written by the batch tool: an object with the single
field files (batch_encrypt.js line 258). -/
structure Manifest where
  files : List String
  deriving DecidableEq, Repr

/-- UTF-16 code units of one character, as produced by the JavaScript string
representation: one unit below 0x10000, otherwise the surrogate pair. -/
def utf16Char (c : Char) : List Nat :=
  if c.toNat < 0x10000 then [c.toNat]
  else [0xD800 + (c.toNat - 0x10000) / 0x400, 0xDC00 + (c.toNat - 0x10000) % 0x400]

/-- UTF-16 code unit sequence of a string. -/
def utf16Units (s : String) : List Nat :=
  s.data.flatMap utf16Char

/-- Lexicographic order on code unit sequences. -/
def unitsLe : List Nat → List Nat → Bool
  | [], _ => true
  | _ :: _, [] => false
  | a :: as, b :: bs => if a < b then true else if b < a then false else unitsLe as bs

/-- String order used by the default Array.prototype.sort comparator of
JavaScript: compare the UTF-16 code unit sequences lexicographically
(ECMA-262 SortCompare falls back to the string less-than operator, which is
code-unit lexicographic). -/
def jsStringLe (a b : String) : Bool :=
  unitsLe (utf16Units a) (utf16Units b)

/-- Embedding of the manifest construction (batch_encrypt.js line 258): the
object whose files field is encNames.sort(), the default sort being the
code-unit lexicographic ascending order modelled by jsStringLe. -/
def buildManifest (encNames : List String) : Manifest :=
  ⟨encNames.mergeSort jsStringLe⟩

/-- Model of the JavaScript toLowerCase platform primitive: per-character
case folding over the character sequence (the filter of the batch tool only
relies on folding the ASCII letters of a .TXT style suffix). -/
def jsToLower (s : String) : String := ⟨s.data.map Char.toLower⟩

/-- Model of the JavaScript endsWith platform primitive: a suffix test on
the character sequence, which agrees with the code unit definition for the
ASCII suffix used by the batch tool. -/
def jsEndsWith (s post : String) : Bool := post.data.isSuffixOf s.data

/-- Environment of one batch run: what the file system and the interactive
prompts supply to the main function of batch_encrypt.js. pass1 and pass2 are
the two masked passphrase entries; contents gives the text of each input
file; rng is the CSPRNG state. -/
structure BatchEnv where
  dirExists : Bool
  allFiles : List String
  contents : String → String
  pass1 : String
  pass2 : String
  rng : RngState

/-- Termination cases of the batch main function, in source order:
directory missing (exit 1), no .txt files (exit 0), passphrase mismatch
(exit 1), a thrown error reaching the outer catch (exit 1), or completion
with the number of files encrypted (normal exit 0). -/
inductive BatchOutcome where
  | dirNotFound
  | nothingToDo
  | passphraseMismatch
  | fatal (e : DiaryError)
  | done (count : Nat)
  deriving DecidableEq, Repr

/-- Process exit status of each batch outcome, from the process.exit calls of
batch_encrypt.js (lines 214, 224, 232, 268) and the normal return. -/
def exitCode : BatchOutcome → Nat
  | .dirNotFound => 1
  | .nothingToDo => 0
  | .passphraseMismatch => 1
  | .fatal _ => 1
  | .done _ => 0

/-- File system writes a batch run performs: an encrypted envelope file or
the manifest file. -/
inductive FileWrite where
  | encFile (name : String) (pkg : Pkg)
  | manifestFile (m : Manifest)
  deriving DecidableEq, Repr

/-- Embedding of the per-file loop of batch_encrypt.js (lines 240-255): for
each input name in order, encrypt its contents with the confirmed passphrase
and ITERATIONS, write name.enc, and record the output name. A thrown error
stops the loop, keeping the writes already performed; the result is the list
of writes, the recorded names, the error if one occurred and the final CSPRNG
state. -/
def encLoop (pass : String) (contents : String → String) :
    List String → RngState → List (String × Pkg) × List String × Option DiaryError × RngState
  | [], st => ([], [], none, st)
  | f :: fs, st =>
    match encryptTextNode (contents f) pass ITERATIONS st with
    | .error e => ([], [], some e, st)
    | .ok (pkg, st1) =>
      let rest := encLoop pass contents fs st1
      ((f ++ ".enc", pkg) :: rest.1, (f ++ ".enc") :: rest.2.1, rest.2.2.1, rest.2.2.2)

/-- Embedding of the batch main function (batch_encrypt.js lines 209-270):
check the target directory, filter the .txt files (case-insensitive suffix
test), compare the two passphrase entries before touching any file, then run
the encryption loop and finally write the manifest built from the recorded
output names. Returns the outcome together with every file write performed. -/
def batchMain (env : BatchEnv) : BatchOutcome × List FileWrite :=
  if env.dirExists = false then (.dirNotFound, [])
  else
    let txtFiles := env.allFiles.filter fun f => jsEndsWith (jsToLower f) ".txt"
    if txtFiles.isEmpty then (.nothingToDo, [])
    else if env.pass1 ≠ env.pass2 then (.passphraseMismatch, [])
    else
      let run := encLoop env.pass1 env.contents txtFiles env.rng
      match run.2.2.1 with
      | some e => (.fatal e, run.1.map fun w => .encFile w.1 w.2)
      | none =>
        (.done run.2.1.length,
         (run.1.map fun w => .encFile w.1 w.2) ++ [.manifestFile (buildManifest run.2.1)])

/-! Helper lemmas about the embedded operations. -/

/-- Envelope that encryptTextNode builds from a CSPRNG state: salt from
stream offsets 0-15, IV from offsets 16-27, ciphertext binding the derived
key and that IV to the plaintext. -/
def nodePkg (P W : String) (N : Int) (st : RngState) : Pkg :=
  { v := some 1, kdf := some "PBKDF2", kdf_iter := some N,
    salt := some (rndSeg st 0 16), iv := some (rndSeg st 16 12),
    ct := some (.genuine ⟨W, rndSeg st 0 16, N⟩ (rndSeg st 16 12) P) }

theorem rndSeg_length (st : RngState) (off n : Nat) : (rndSeg st off n).length = n := by
  simp [rndSeg]

theorem rndSeg_ne_nil (st : RngState) (off : Nat) {n : Nat} (h : 0 < n) :
    rndSeg st off n ≠ [] := by
  intro hc
  have := rndSeg_length st off n
  rw [hc] at this
  simp at this
  omega

theorem encryptTextNode_eq (P W : String) (N : Int) (st : RngState) (h : 0 < N) :
    encryptTextNode P W N st = .ok (nodePkg P W N st, ⟨st.stream, st.pos + 28⟩) := by
  simp only [encryptTextNode, rndBytes, deriveKeyFromPasswordNode, subtleEncrypt]
  rw [if_neg (by omega)]
  rfl

theorem encryptText_eq (P W : String) (st : RngState) :
    encryptText P W st = .ok (nodePkg P W 200000 st, ⟨st.stream, st.pos + 28⟩) := by
  simp only [encryptText, rndBytes, deriveKeyFromPassword, subtleEncrypt]
  rw [if_neg (by omega)]
  rfl

theorem decrypt_nodePkg (P W : String) (N : Int) (st : RngState) (h : 0 < N) :
    decryptPackage (some (nodePkg P W N st)) W = .ok P := by
  have hsalt : (rndSeg st 0 16).isEmpty = false := by
    simp [List.isEmpty_eq_true, rndSeg_ne_nil st 0 (by omega : (0:Nat) < 16)]
  have hiv : (rndSeg st 16 12).isEmpty = false := by
    simp [List.isEmpty_eq_true, rndSeg_ne_nil st 16 (by omega : (0:Nat) < 12)]
  have hN : N ≠ 0 := by omega
  simp only [decryptPackage, nodePkg, decryptIterations, deriveKeyFromPassword,
    subtleDecrypt, hsalt, hiv]
  rw [if_neg (by simp), if_neg hN, if_neg (by omega : ¬ N ≤ 0)]
  simp

theorem subtleDecrypt_ok (k : CryptoKey) (i : List Nat) (c : CtBytes) (p : String)
    (h : subtleDecrypt k i c = .ok p) : c = .genuine k i p := by
  cases c with
  | genuine k2 i2 p2 =>
    simp only [subtleDecrypt] at h
    split at h
    · next hcond =>
      obtain ⟨hk, hi⟩ := hcond
      simp only [Except.ok.injEq] at h
      subst hk hi h
      rfl
    · simp at h
  | corrupted o j => simp [subtleDecrypt] at h

/-- Behaviour of decryptPackage on an envelope that passes the version and
field gates with a derivable iteration count: the result is exactly the
outcome of authenticated decryption under the key derived from the envelope
salt and the envelope iteration count, with every failure mapped to the
single authentication error. -/
theorem decrypt_wellformed (pkg : Pkg) (w : String) (sB iB : List Nat) (cB : CtBytes)
    (hv : pkg.v = some 1) (hs : pkg.salt = some sB) (hsne : sB.isEmpty = false)
    (hi : pkg.iv = some iB) (hine : iB.isEmpty = false) (hc : pkg.ct = some cB)
    (hit : 0 < decryptIterations pkg.kdf_iter) :
    decryptPackage (some pkg) w =
      match subtleDecrypt ⟨w, sB, decryptIterations pkg.kdf_iter⟩ iB cB with
      | .error _ => .error .AuthenticationFailure
      | .ok p => .ok p := by
  obtain ⟨v, kdf, it, salt, iv, ct⟩ := pkg
  simp only at hv hs hi hc hit
  subst hv hs hi hc
  simp only [decryptPackage, deriveKeyFromPassword, hsne, hine]
  rw [if_neg (by simp)]
  simp only [Bool.or_self, Bool.false_eq_true, if_false]
  rw [if_neg (by omega : ¬ decryptIterations it ≤ 0)]

/-- Successful decryption always returns the complete plaintext bound into
the ciphertext of the envelope: no path returns a prefix or other fragment. -/
theorem decrypt_ok_full (pkg : Pkg) (w s : String)
    (h : decryptPackage (some pkg) w = .ok s) :
    ∃ k i, pkg.ct = some (.genuine k i s) := by
  obtain ⟨v, kdf, it, salt, iv, ct⟩ := pkg
  simp only [decryptPackage] at h
  split at h
  · simp at h
  · cases salt with
    | none => simp at h
    | some saltBuf =>
      cases iv with
      | none => simp at h
      | some ivBuf =>
        cases ct with
        | none => simp at h
        | some ctBuf =>
          simp only at h
          split at h
          · simp at h
          · split at h
            · simp at h
            · next key heq =>
              split at h
              · simp at h
              · next p heq2 =>
                simp only [Except.ok.injEq] at h
                subst h
                exact ⟨key, ivBuf, by rw [subtleDecrypt_ok key ivBuf ctBuf p heq2]⟩

/-! Properties of the UTF-16 code unit order used by the manifest sort. -/

theorem char_toNat_valid (c : Char) :
    c.toNat < 0xD800 ∨ (0xDFFF < c.toNat ∧ c.toNat < 0x110000) := c.valid

theorem char_toNat_eq {a b : Char} (h : a.toNat = b.toNat) : a = b := by
  have := congrArg Char.ofNat h
  rwa [Char.ofNat_toNat, Char.ofNat_toNat] at this

theorem utf16Char_ne_nil (c : Char) : utf16Char c ≠ [] := by
  unfold utf16Char
  split <;> simp

theorem utf16Char_chain {c c' : Char} {xs ys : List Nat}
    (h : utf16Char c ++ xs = utf16Char c' ++ ys) : c = c' ∧ xs = ys := by
  have hv := char_toNat_valid c
  have hv' := char_toNat_valid c'
  unfold utf16Char at h
  by_cases h1 : c.toNat < 0x10000 <;> by_cases h2 : c'.toNat < 0x10000 <;>
    simp only [h1, h2, if_true, if_false, List.cons_append, List.nil_append,
      List.cons.injEq, if_pos, if_neg] at h
  · exact ⟨char_toNat_eq h.1, h.2⟩
  · exact absurd h.1 (by omega)
  · exact absurd h.1 (by omega)
  · obtain ⟨ha, hb, hxy⟩ := h
    have : c.toNat = c'.toNat := by omega
    exact ⟨char_toNat_eq this, hxy⟩

theorem flatMap_utf16_inj : ∀ (l1 l2 : List Char),
    l1.flatMap utf16Char = l2.flatMap utf16Char → l1 = l2
  | [], [], _ => rfl
  | [], c :: l2, h => by
    rw [List.flatMap_nil, List.flatMap_cons] at h
    cases hc : utf16Char c with
    | nil => exact absurd hc (utf16Char_ne_nil c)
    | cons a as => rw [hc] at h; cases h
  | c :: l1, [], h => by
    rw [List.flatMap_nil, List.flatMap_cons] at h
    cases hc : utf16Char c with
    | nil => exact absurd hc (utf16Char_ne_nil c)
    | cons a as => rw [hc] at h; cases h
  | c :: l1, c' :: l2, h => by
    rw [List.flatMap_cons, List.flatMap_cons] at h
    obtain ⟨hc, ht⟩ := utf16Char_chain h
    rw [hc, flatMap_utf16_inj l1 l2 ht]

theorem utf16Units_inj {a b : String} (h : utf16Units a = utf16Units b) : a = b :=
  String.ext (flatMap_utf16_inj a.data b.data h)

theorem unitsLe_total : ∀ x y : List Nat, unitsLe x y = true ∨ unitsLe y x = true
  | [], _ => Or.inl rfl
  | _ :: _, [] => Or.inr rfl
  | a :: as, b :: bs => by
    by_cases hab : a < b
    · left; simp [unitsLe, hab]
    · by_cases hba : b < a
      · right; simp [unitsLe, hba]
      · have hEq : a = b := by omega
        subst hEq
        rcases unitsLe_total as bs with h | h
        · left; simp [unitsLe, h]
        · right; simp [unitsLe, h]

theorem unitsLe_trans : ∀ x y z : List Nat,
    unitsLe x y = true → unitsLe y z = true → unitsLe x z = true
  | [], _, _, _, _ => rfl
  | _ :: _, [], _, h1, _ => by simp [unitsLe] at h1
  | _ :: _, _ :: _, [], _, h2 => by simp [unitsLe] at h2
  | a :: as, b :: bs, c :: cs, h1, h2 => by
    simp only [unitsLe] at h1 h2 ⊢
    by_cases hab : a < b
    · by_cases hbc : b < c
      · simp [show a < c by omega]
      · by_cases hcb : c < b
        · simp [hbc, hcb] at h2
        · simp [show a < c by omega]
    · by_cases hba : b < a
      · simp [hab, hba] at h1
      · have hEq : a = b := by omega
        subst hEq
        simp only [hab, if_false, lt_irrefl] at h1
        by_cases hac : a < c
        · simp [hac]
        · by_cases hca : c < a
          · simp [hac, hca] at h2
          · have hEq2 : a = c := by omega
            subst hEq2
            simp only [hac, if_false, lt_irrefl] at h2 ⊢
            exact unitsLe_trans as bs cs h1 h2

theorem unitsLe_antisymm : ∀ x y : List Nat,
    unitsLe x y = true → unitsLe y x = true → x = y
  | [], [], _, _ => rfl
  | [], _ :: _, _, h2 => by simp [unitsLe] at h2
  | _ :: _, [], h1, _ => by simp [unitsLe] at h1
  | a :: as, b :: bs, h1, h2 => by
    by_cases hab : a < b
    · simp [unitsLe, hab, show ¬ b < a by omega] at h2
    · by_cases hba : b < a
      · simp [unitsLe, hab, hba] at h1
      · have hEq : a = b := by omega
        subst hEq
        simp only [unitsLe, hab, if_false, lt_irrefl] at h1 h2
        rw [unitsLe_antisymm as bs h1 h2]

theorem jsStringLe_total (a b : String) : jsStringLe a b = true ∨ jsStringLe b a = true :=
  unitsLe_total _ _

theorem jsStringLe_trans {a b c : String} (h1 : jsStringLe a b = true)
    (h2 : jsStringLe b c = true) : jsStringLe a c = true :=
  unitsLe_trans _ _ _ h1 h2

theorem jsStringLe_antisymm {a b : String} (h1 : jsStringLe a b = true)
    (h2 : jsStringLe b a = true) : a = b :=
  utf16Units_inj (unitsLe_antisymm _ _ h1 h2)

theorem buildManifest_perm (l : List String) : (buildManifest l).files.Perm l :=
  List.mergeSort_perm l jsStringLe

theorem buildManifest_sorted (l : List String) :
    (buildManifest l).files.Pairwise (fun a b => jsStringLe a b = true) := by
  unfold buildManifest
  exact @List.sorted_mergeSort String jsStringLe
    (fun a b c hab hbc => jsStringLe_trans hab hbc)
    (fun a b => by
      rcases jsStringLe_total a b with h | h <;> simp [h])
    l

theorem buildManifest_invariant {l1 l2 : List String} (h : l1.Perm l2) :
    buildManifest l1 = buildManifest l2 := by
  haveI : IsAntisymm String (fun a b => jsStringLe a b = true) :=
    ⟨fun a b h1 h2 => jsStringLe_antisymm h1 h2⟩
  have hp : (buildManifest l1).files.Perm (buildManifest l2).files :=
    (buildManifest_perm l1).trans (h.trans (buildManifest_perm l2).symm)
  have hf : (buildManifest l1).files = (buildManifest l2).files :=
    List.eq_of_perm_of_sorted hp (buildManifest_sorted l1) (buildManifest_sorted l2)
  exact congrArg Manifest.mk hf

/-! Further helper lemmas and concrete fixtures used by the claim theorems. -/

theorem decryptIterations_some {N : Int} (h : N ≠ 0) : decryptIterations (some N) = N := by
  simp [decryptIterations, h]

theorem rndSeg_salt_isEmpty (st : RngState) : (rndSeg st 0 16).isEmpty = false := by
  simp [List.isEmpty_eq_true, rndSeg_ne_nil st 0 (by omega : (0:Nat) < 16)]

theorem rndSeg_iv_isEmpty (st : RngState) : (rndSeg st 16 12).isEmpty = false := by
  simp [List.isEmpty_eq_true, rndSeg_ne_nil st 16 (by omega : (0:Nat) < 12)]

theorem decrypt_nodePkg_wrongpass (P W1 W2 : String) (N : Int) (st : RngState)
    (hN : 0 < N) (hW : W1 ≠ W2) :
    decryptPackage (some (nodePkg P W1 N st)) W2 = .error .AuthenticationFailure := by
  have hit : decryptIterations (some N) = N := decryptIterations_some (by omega)
  rw [decrypt_wellformed (nodePkg P W1 N st) W2 (rndSeg st 0 16) (rndSeg st 16 12)
    (.genuine ⟨W1, rndSeg st 0 16, N⟩ (rndSeg st 16 12) P) rfl rfl
    (rndSeg_salt_isEmpty st) rfl (rndSeg_iv_isEmpty st) rfl
    (by simp only [nodePkg, hit]; omega)]
  simp only [nodePkg, hit]
  simp [subtleDecrypt, CryptoKey.mk.injEq, hW]

theorem decrypt_nodePkg_corrupted (P W w2 : String) (N : Int) (st : RngState)
    (hN : 0 < N) (j : Nat) :
    decryptPackage
      (some { nodePkg P W N st with
              ct := (nodePkg P W N st).ct.map fun c => .corrupted c j }) w2 =
      .error .AuthenticationFailure := by
  have hit : decryptIterations (some N) = N := decryptIterations_some (by omega)
  rw [decrypt_wellformed _ w2 (rndSeg st 0 16) (rndSeg st 16 12)
    (.corrupted (.genuine ⟨W, rndSeg st 0 16, N⟩ (rndSeg st 16 12) P) j) rfl rfl
    (rndSeg_salt_isEmpty st) rfl (rndSeg_iv_isEmpty st) rfl
    (by simp only [nodePkg, hit]; omega)]
  rfl

/-- Concrete deterministic CSPRNG state used by the witnesses. -/
def rng0 : RngState := ⟨fun i => i % 256, 0⟩

/-- Concrete CSPRNG state 28 bytes into the same stream. -/
def rng28 : RngState := ⟨fun i => i % 256, 28⟩

/-- Concrete envelope whose kdf_iter field is present with value 0 but whose
ciphertext was produced under 200000 iterations: decryptPackage accepts it,
exposing that the truthiness fallback fires on a present field. -/
def kdf0Pkg : Pkg :=
  { v := some 1, kdf := some "PBKDF2", kdf_iter := some 0,
    salt := some [1], iv := some [2],
    ct := some (.genuine ⟨"pw", [1], 200000⟩ [2] "secret") }

/-- Concrete envelope with version 2 and every other field well-formed. -/
def version2Pkg : Pkg :=
  { v := some 2, kdf := some "PBKDF2", kdf_iter := some 200000,
    salt := some [1], iv := some [2],
    ct := some (.genuine ⟨"pw", [1], 200000⟩ [2] "x") }

/-- Concrete version-1 envelope lacking the ct field. -/
def noCtPkg : Pkg :=
  { v := some 1, kdf := some "PBKDF2", kdf_iter := some 200000,
    salt := some [1], iv := some [2], ct := none }

/-- Concrete input lacking every field, the version included. -/
def emptyPkg : Pkg :=
  { v := none, kdf := none, kdf_iter := none, salt := none, iv := none, ct := none }

/-- Concrete batch environment whose two passphrase entries differ. -/
def mismatchEnv : BatchEnv :=
  { dirExists := true, allFiles := ["1980.txt"], contents := fun _ => "Hello 1980",
    pass1 := "correct-horse", pass2 := "correct-hors", rng := rng0 }

/-! Claim theorems. -/

/-- C1: for every plaintext string P, passphrase W and valid iteration count
N, decrypting the envelope produced by encryption under W back with the same
passphrase W returns exactly P; in particular an envelope produced by the
batch tool encryptTextNode decrypts to its plaintext via the browser
decryptPackage, and likewise an envelope of the browser encryptText. -/
theorem diary_roundtrip (P W : String) (N : Int) (st : RngState) (hN : 0 < N) :
    (∀ pkg st2, encryptTextNode P W N st = .ok (pkg, st2) →
      decryptPackage (some pkg) W = .ok P) ∧
    (∀ pkg st2, encryptText P W st = .ok (pkg, st2) →
      decryptPackage (some pkg) W = .ok P) := by
  constructor
  · intro pkg st2 h
    rw [encryptTextNode_eq P W N st hN] at h
    simp only [Except.ok.injEq, Prod.mk.injEq] at h
    rw [← h.1]
    exact decrypt_nodePkg P W N st hN
  · intro pkg st2 h
    rw [encryptText_eq P W st] at h
    simp only [Except.ok.injEq, Prod.mk.injEq] at h
    rw [← h.1]
    exact decrypt_nodePkg P W 200000 st (by omega)

/-- Witness for C1 at the concrete batch-tool iteration count 1000000. -/
theorem diary_roundtrip_witness :
    decryptPackage (some (nodePkg "Hello 1980" "correct-horse" 1000000 rng0))
      "correct-horse" = .ok "Hello 1980" :=
  (diary_roundtrip "Hello 1980" "correct-horse" 1000000 rng0 (by decide)).1
    (nodePkg "Hello 1980" "correct-horse" 1000000 rng0) ⟨rng0.stream, rng0.pos + 28⟩
    (encryptTextNode_eq "Hello 1980" "correct-horse" 1000000 rng0 (by decide))

/-- C4: every envelope whose version field differs from 1 is rejected as
UnsupportedVersion, whatever the other fields hold. -/
theorem diary_version_gate (pkg : Pkg) (w : String) (h : pkg.v ≠ some 1) :
    decryptPackage (some pkg) w = .error .UnsupportedVersion := by
  simp only [decryptPackage]
  rw [if_pos h]

/-- Witness for C4: a version-2 envelope with every other field well-formed. -/
theorem diary_version_gate_witness :
    decryptPackage (some version2Pkg) "pw" = .error .UnsupportedVersion :=
  diary_version_gate version2Pkg "pw" (by decide)

/-- C5: every version-1 envelope lacking salt, iv or ct is rejected as
MalformedPackage, for every password, so no key derivation or decryption
outcome can influence the result. -/
theorem diary_field_gate (pkg : Pkg) (w : String) (hv : pkg.v = some 1)
    (h : pkg.salt = none ∨ pkg.iv = none ∨ pkg.ct = none) :
    decryptPackage (some pkg) w = .error .MalformedPackage := by
  obtain ⟨v, kdf, it, salt, iv, ct⟩ := pkg
  simp only at hv h
  subst hv
  cases salt <;> cases iv <;> cases ct <;> simp_all [decryptPackage]

/-- Witness for C5: a version-1 envelope lacking the ct field. -/
theorem diary_field_gate_witness :
    decryptPackage (some noCtPkg) "pw" = .error .MalformedPackage :=
  diary_field_gate noCtPkg "pw" rfl (Or.inr (Or.inr rfl))

/-- C6: key derivation with an iteration count at most 0 fails with
InvalidIterationCount in both the browser and the Node variant, and never
returns a derived key. -/
theorem diary_invalid_iteration_count (password : String) (saltBytes : List Nat)
    (hlen : saltBytes.length = 16) (iterations : Int) (h : iterations ≤ 0) :
    deriveKeyFromPassword password saltBytes iterations = .error .InvalidIterationCount ∧
    deriveKeyFromPasswordNode password saltBytes iterations = .error .InvalidIterationCount ∧
    (∀ key, deriveKeyFromPassword password saltBytes iterations ≠ .ok key ∧
            deriveKeyFromPasswordNode password saltBytes iterations ≠ .ok key) := by
  refine ⟨?_, ?_, fun key => ⟨?_, ?_⟩⟩ <;>
    simp [deriveKeyFromPassword, deriveKeyFromPasswordNode, h]

/-- Witness for C6 at iteration count 0 and a concrete 16-byte salt. -/
theorem diary_invalid_iteration_count_witness :
    deriveKeyFromPassword "pw" (List.replicate 16 0) 0 = .error .InvalidIterationCount :=
  (diary_invalid_iteration_count "pw" (List.replicate 16 0) (by decide) 0 (by decide)).1

/-- C10: a null input, and any input lacking the version field entirely
(even one that also lacks salt, iv and ct), is rejected as
UnsupportedVersion, not MalformedPackage: the version check runs strictly
before the field completeness check. -/
theorem diary_version_check_first (w : String) :
    decryptPackage none w = .error .UnsupportedVersion ∧
    (∀ pkg : Pkg, pkg.v = none → decryptPackage (some pkg) w = .error .UnsupportedVersion) := by
  refine ⟨rfl, fun pkg hv => ?_⟩
  simp only [decryptPackage]
  rw [if_pos (by rw [hv]; simp)]

/-- Witness for C10 at the envelope lacking every field. -/
theorem diary_version_check_first_witness :
    decryptPackage (some emptyPkg) "pw" = .error .UnsupportedVersion :=
  (diary_version_check_first "pw").2 emptyPkg rfl

/-- C2: every tag-verification failure inside decryptPackage surfaces as the
single AuthenticationFailure error: in particular decrypting an envelope with
a different passphrase than the one that produced it, and decrypting an
envelope whose ciphertext bytes were modified (a bit flip), both fail that
way; and a successful decryption always returns the complete plaintext bound
into the ciphertext, never a fragment. -/
theorem diary_auth_failure :
    (∀ (pkg : Pkg) (w : String) (sB iB : List Nat) (cB : CtBytes),
      pkg.v = some 1 → pkg.salt = some sB → sB.isEmpty = false →
      pkg.iv = some iB → iB.isEmpty = false → pkg.ct = some cB →
      0 < decryptIterations pkg.kdf_iter →
      subtleDecrypt ⟨w, sB, decryptIterations pkg.kdf_iter⟩ iB cB = .error () →
      decryptPackage (some pkg) w = .error .AuthenticationFailure) ∧
    (∀ P W1 W2 N st pkg st2, 0 < N → W1 ≠ W2 →
      encryptTextNode P W1 N st = .ok (pkg, st2) →
      decryptPackage (some pkg) W2 = .error .AuthenticationFailure) ∧
    (∀ P W N st pkg st2, 0 < N →
      encryptTextNode P W N st = .ok (pkg, st2) →
      ∀ j w2, decryptPackage
          (some { pkg with ct := pkg.ct.map fun c => .corrupted c j }) w2 =
        .error .AuthenticationFailure) ∧
    (∀ pkg w s, decryptPackage (some pkg) w = .ok s →
      ∃ k i, pkg.ct = some (.genuine k i s)) := by
  refine ⟨?_, ?_, ?_, fun pkg w s h => decrypt_ok_full pkg w s h⟩
  · intro pkg w sB iB cB hv hs hsne hi hine hc hit hfail
    rw [decrypt_wellformed pkg w sB iB cB hv hs hsne hi hine hc hit, hfail]
  · intro P W1 W2 N st pkg st2 hN hW h
    rw [encryptTextNode_eq P W1 N st hN] at h
    simp only [Except.ok.injEq, Prod.mk.injEq] at h
    rw [← h.1]
    exact decrypt_nodePkg_wrongpass P W1 W2 N st hN hW
  · intro P W N st pkg st2 hN h j w2
    rw [encryptTextNode_eq P W N st hN] at h
    simp only [Except.ok.injEq, Prod.mk.injEq] at h
    rw [← h.1]
    exact decrypt_nodePkg_corrupted P W w2 N st hN j

/-- Witness for C2: wrong passphrase on a concrete envelope. -/
theorem diary_auth_failure_witness :
    decryptPackage (some (nodePkg "Hello 1980" "correct-horse" 1000000 rng0))
      "wrong-pass" = .error .AuthenticationFailure :=
  diary_auth_failure.2.1 "Hello 1980" "correct-horse" "wrong-pass" 1000000 rng0
    (nodePkg "Hello 1980" "correct-horse" 1000000 rng0) ⟨rng0.stream, rng0.pos + 28⟩
    (by decide) (by decide)
    (encryptTextNode_eq "Hello 1980" "correct-horse" 1000000 rng0 (by decide))

/-- C3 counterexample: an envelope whose kdf_iter field is present with value
0 is decrypted with the 200000 fallback, not with the field value: the
ciphertext of kdf0Pkg authenticates only under a key derived with 200000
iterations, and decryptPackage accepts it (with iteration count 0 the
derivation itself would fail). The fallback therefore fires on an envelope
that does not lack the field, refuting the claim as stated. -/
theorem diary_kdf_iter_zero_counterexample :
    kdf0Pkg.kdf_iter = some 0 ∧
    decryptIterations kdf0Pkg.kdf_iter = 200000 ∧
    decryptPackage (some kdf0Pkg) "pw" = .ok "secret" :=
  ⟨rfl, rfl, rfl⟩

/-- C3 amended: decryptPackage reads the iteration count through the
JavaScript truthiness expression pkg.kdf_iter || 200000, so it falls back to
the legacy default 200000 exactly when the field is absent or equal to 0;
for every nonzero field value N it derives the key with the envelope salt
and N (never a caller default), and an envelope produced with kdf_iter = N
> 0 decrypts correctly using N read from the envelope. -/
theorem diary_kdf_iter_fallback :
    decryptIterations none = 200000 ∧
    decryptIterations (some 0) = 200000 ∧
    (∀ N : Int, N ≠ 0 → decryptIterations (some N) = N) ∧
    (∀ (pkg : Pkg) (w : String) (sB iB : List Nat) (cB : CtBytes),
      pkg.v = some 1 → pkg.salt = some sB → sB.isEmpty = false →
      pkg.iv = some iB → iB.isEmpty = false → pkg.ct = some cB →
      0 < decryptIterations pkg.kdf_iter →
      decryptPackage (some pkg) w =
        match subtleDecrypt ⟨w, sB, decryptIterations pkg.kdf_iter⟩ iB cB with
        | .error _ => .error .AuthenticationFailure
        | .ok p => .ok p) ∧
    (∀ P W N st, 0 < N → ∀ pkg st2, encryptTextNode P W N st = .ok (pkg, st2) →
      pkg.kdf_iter = some N ∧ decryptPackage (some pkg) W = .ok P) := by
  refine ⟨rfl, rfl, fun N hN => decryptIterations_some hN,
    fun pkg w sB iB cB hv hs hsne hi hine hc hit =>
      decrypt_wellformed pkg w sB iB cB hv hs hsne hi hine hc hit, ?_⟩
  intro P W N st hN pkg st2 h
  rw [encryptTextNode_eq P W N st hN] at h
  simp only [Except.ok.injEq, Prod.mk.injEq] at h
  rw [← h.1]
  exact ⟨rfl, decrypt_nodePkg P W N st hN⟩

/-- Witness for the amended C3 at kdf_iter 5, differing from both the
browser default 200000 and the batch default 1000000. -/
theorem diary_kdf_iter_fallback_witness :
    decryptPackage (some (nodePkg "hi" "pw" 5 rng0)) "pw" = .ok "hi" :=
  (diary_kdf_iter_fallback.2.2.2.2 "hi" "pw" 5 rng0 (by decide)
    (nodePkg "hi" "pw" 5 rng0) ⟨rng0.stream, rng0.pos + 28⟩
    (encryptTextNode_eq "hi" "pw" 5 rng0 (by decide))).2

/-- C7: the built manifest holds exactly the recorded output names sorted
ascending in the code-unit lexicographic order, it is invariant under the
enumeration order of the names, and on the concrete input of the spec it
lists 1980 before 1981. -/
theorem diary_manifest_deterministic :
    (∀ l : List String, (buildManifest l).files.Perm l ∧
      (buildManifest l).files.Pairwise (fun a b => jsStringLe a b = true)) ∧
    (∀ l1 l2 : List String, l1.Perm l2 → buildManifest l1 = buildManifest l2) ∧
    buildManifest ["1981.txt.enc", "1980.txt.enc"] = ⟨["1980.txt.enc", "1981.txt.enc"]⟩ := by
  refine ⟨fun l => ⟨buildManifest_perm l, buildManifest_sorted l⟩,
    fun l1 l2 h => buildManifest_invariant h, ?_⟩
  have h1 : buildManifest ["1981.txt.enc", "1980.txt.enc"] =
      buildManifest ["1980.txt.enc", "1981.txt.enc"] :=
    buildManifest_invariant (List.Perm.swap "1980.txt.enc" "1981.txt.enc" [])
  rw [h1]
  unfold buildManifest
  rw [List.mergeSort_of_sorted (by decide)]

/-- Witness for C7: the two enumeration orders of the spec example build the
same manifest. -/
theorem diary_manifest_deterministic_witness :
    buildManifest ["1981.txt.enc", "1980.txt.enc"] =
      buildManifest ["1980.txt.enc", "1981.txt.enc"] :=
  diary_manifest_deterministic.2.1 _ _ (List.Perm.swap "1980.txt.enc" "1981.txt.enc" [])

/-- C8: a batch run whose two passphrase entries differ performs zero file
writes (unconditionally, whatever else the environment holds), and a run
that reaches the prompts (directory present, at least one .txt file) with
differing entries terminates as passphraseMismatch with exit status 1. -/
theorem diary_passphrase_mismatch (env : BatchEnv) (hne : env.pass1 ≠ env.pass2) :
    (batchMain env).2 = [] ∧
    (env.dirExists = true →
      (env.allFiles.filter fun f => jsEndsWith (jsToLower f) ".txt").isEmpty = false →
      batchMain env = (.passphraseMismatch, []) ∧
      exitCode (batchMain env).1 = 1) := by
  have hmain : env.dirExists = true →
      (env.allFiles.filter fun f => jsEndsWith (jsToLower f) ".txt").isEmpty = false →
      batchMain env = (.passphraseMismatch, []) := by
    intro hd htxt
    simp [batchMain, hd, htxt, hne]
  refine ⟨?_, fun hd htxt => ⟨hmain hd htxt, by rw [hmain hd htxt]; rfl⟩⟩
  cases hd : env.dirExists
  · simp [batchMain, hd]
  · cases htxt : (env.allFiles.filter fun f => jsEndsWith (jsToLower f) ".txt").isEmpty
    · rw [hmain hd htxt]
    · simp [batchMain, hd, htxt]

/-- Witness for C8 at a concrete environment with differing entries. -/
theorem diary_passphrase_mismatch_witness :
    batchMain mismatchEnv = (.passphraseMismatch, []) ∧
    exitCode (batchMain mismatchEnv).1 = 1 :=
  (diary_passphrase_mismatch mismatchEnv (by decide)).2 rfl (by decide)

/-- Concrete CSPRNG state 56 bytes into the stream of rng0. -/
def rng56 : RngState := ⟨fun i => i % 256, 56⟩

/-- C9: two successive encryptText calls with identical plaintext and
passphrase draw their salts and IVs from disjoint, consecutive segments of
the random source (offsets 0-15 and 16-27, then 28-43 and 44-55), and
whenever the source delivers different bytes on those fresh segments — which
a CSPRNG does up to negligible probability — the two envelopes have
different salts, different IVs and different ciphertexts. -/
theorem diary_fresh_randomness (P W : String) (st : RngState) (pkg1 pkg2 : Pkg)
    (st1 st2 : RngState)
    (h1 : encryptText P W st = .ok (pkg1, st1))
    (h2 : encryptText P W st1 = .ok (pkg2, st2)) :
    st1.pos = st.pos + 28 ∧ st2.pos = st.pos + 56 ∧
    pkg1.salt = some (rndSeg st 0 16) ∧ pkg2.salt = some (rndSeg st 28 16) ∧
    pkg1.iv = some (rndSeg st 16 12) ∧ pkg2.iv = some (rndSeg st 44 12) ∧
    (rndSeg st 0 16 ≠ rndSeg st 28 16 → pkg1.salt ≠ pkg2.salt) ∧
    (rndSeg st 16 12 ≠ rndSeg st 44 12 → pkg1.iv ≠ pkg2.iv ∧ pkg1.ct ≠ pkg2.ct) := by
  rw [encryptText_eq P W st] at h1
  simp only [Except.ok.injEq, Prod.mk.injEq] at h1
  obtain ⟨hp1, hs1⟩ := h1
  subst hs1
  rw [encryptText_eq P W ⟨st.stream, st.pos + 28⟩] at h2
  simp only [Except.ok.injEq, Prod.mk.injEq] at h2
  obtain ⟨hp2, hs2⟩ := h2
  subst hp1
  subst hp2
  subst hs2
  have hiv2 : rndSeg ⟨st.stream, st.pos + 28⟩ 16 12 = rndSeg st 44 12 := by
    simp [rndSeg, Nat.add_assoc]
  refine ⟨rfl, by show st.pos + 28 + 28 = st.pos + 56; omega, rfl, rfl, rfl, ?_, ?_, ?_⟩
  · show some (rndSeg ⟨st.stream, st.pos + 28⟩ 16 12) = some (rndSeg st 44 12)
    rw [hiv2]
  · intro hne
    simp only [nodePkg, ne_eq, Option.some.injEq]
    exact fun h => hne h
  · intro hne
    constructor
    · simp only [nodePkg, ne_eq, Option.some.injEq]
      rw [hiv2]
      exact hne
    · simp only [nodePkg, ne_eq, Option.some.injEq, CtBytes.genuine.injEq]
      rintro ⟨-, hiv, -⟩
      exact hne (hiv2 ▸ hiv)

/-- Witness for C9 at a concrete stream whose fresh segments do differ. -/
theorem diary_fresh_randomness_witness :
    (nodePkg "hi" "pw" 200000 rng0).salt ≠ (nodePkg "hi" "pw" 200000 rng28).salt ∧
    (nodePkg "hi" "pw" 200000 rng0).iv ≠ (nodePkg "hi" "pw" 200000 rng28).iv ∧
    (nodePkg "hi" "pw" 200000 rng0).ct ≠ (nodePkg "hi" "pw" 200000 rng28).ct := by
  have h := diary_fresh_randomness "hi" "pw" rng0
    (nodePkg "hi" "pw" 200000 rng0) (nodePkg "hi" "pw" 200000 rng28) rng28 rng56
    (encryptText_eq "hi" "pw" rng0) (encryptText_eq "hi" "pw" rng28)
  exact ⟨h.2.2.2.2.2.2.1 (by decide), (h.2.2.2.2.2.2.2 (by decide)).1,
    (h.2.2.2.2.2.2.2 (by decide)).2⟩

end Diary
